import Mathlib

/-!
Shallow embedding of the enrichment pipeline of the
`ms-graph-api_privilege-scraper` repository, together with proofs about it.

The embedded code:
* `src/add-async-extended-descriptions.py` — the async pipeline
  (`get_extended_description`, `process_csv_async`);
* `src/add-extended-descriptions.py` — the synchronous pipeline
  (`get_extended_description`, `process_csv`);
* `src/add-extended-descriptions_two-pass.py` — the two-pass pipeline
  (`get_suggested_score`).

Python machine integers are unbounded, so scores are `Int`;
a Python cell holding the empty string "" instead of an int (the code's
convention for "no score") is `Option Int` with `none` for "".
Fallible paths return `Option`/`Except`.
-/

deriving instance DecidableEq for Except

namespace Scraper

/-! ### Python string primitives -/

/-- Python `str.strip()` (no argument): whitespace trimmed from both
ends; `Char.isWhitespace` agrees with Python on the ASCII whitespace
appearing in this development. -/
def pyStrip (s : String) : String :=
  String.mk
    (((s.data.dropWhile Char.isWhitespace).reverse.dropWhile
        Char.isWhitespace).reverse)

/-- Python `str.lower()` restricted to its ASCII behaviour. -/
def pyLower (s : String) : String := String.mk (s.data.map Char.toLower)

/-- Python `str.startswith` on whole strings. -/
def strStarts (pre s : String) : Bool := pre.data.isPrefixOf s.data

/-- Python `str.endswith` on whole strings. -/
def strEnds (suf s : String) : Bool := suf.data.isSuffixOf s.data

/-- Python `"," in text`. -/
def hasComma (s : String) : Bool := s.data.contains ','

/-- Python `",".join(parts)`. -/
def joinComma : List String → String
  | [] => ""
  | [p] => p
  | p :: ps => p ++ "," ++ joinComma ps

/-- Python `str.strip(chars)`: drop any of the given characters from both
ends of the string. -/
def stripChars (bad : List Char) (s : String) : String :=
  let l := s.data.dropWhile (fun c => bad.contains c)
  String.mk ((l.reverse.dropWhile (fun c => bad.contains c)).reverse)

/-- Value of a nonempty digit string, most significant digit first. -/
def digitsToNat (ds : List Char) : Nat :=
  ds.foldl (fun a c => a * 10 + (c.toNat - 48)) 0

/-- Python `int(s)` restricted to the forms this code can meet: optional
surrounding whitespace, optional sign, then decimal digits.  `none` models
the `ValueError` raised on any other input.  (Python also accepts
underscore digit separators and non-ASCII digits; neither occurs here.) -/
def pyInt (s : String) : Option Int :=
  match (pyStrip s).data with
  | [] => none
  | '+' :: ds =>
      if ds ≠ [] ∧ ds.all Char.isDigit then some (digitsToNat ds) else none
  | '-' :: ds =>
      if ds ≠ [] ∧ ds.all Char.isDigit then some (-(digitsToNat ds : Int)) else none
  | ds =>
      if ds.all Char.isDigit then some (digitsToNat ds) else none

/-- Python `text.split(",", 1)`: the part before the first comma and the
part after it.  Only called when the text contains a comma; on a text
without one the second component is empty. -/
def splitFirstComma (s : String) : String × String :=
  let l := s.data.takeWhile (fun c => c ≠ ',')
  let r := (s.data.dropWhile (fun c => c ≠ ',')).drop 1
  (String.mk l, String.mk r)

/-! ### Python `csv.reader` (default dialect)

State machine of CPython's `_csv` reader with the default dialect
(delimiter `,`, quotechar `"`, doublequote on, no escapechar, non-strict),
fed the whole reply text as one stream (`csv.reader(io.StringIO(text))`).
A quote opening a field starts a quoted field; inside it a doubled quote
is a literal quote and a single closing quote followed by ordinary text
falls back to an unquoted field (non-strict mode); quotes not at the start
of a field are literal.  At end of input any pending field and record are
flushed.  The sources never feed carriage returns, so only `\n` ends a
record here. -/

/-- Parser states of CPython's `_csv` reader (default dialect); the
`escaped` and `eatCrnl` states cannot be reached on the inputs this code
feeds it (no escapechar, no carriage returns), so they are omitted. -/
inductive CsvState
  | startRecord
  | startField
  | inField
  | inQuoted
  | quoteInQuoted
deriving DecidableEq

/-- One step of the CSV reader per input character; `field` and `row` are
the pending field and record, in order.  `startRecord` handles a
non-newline character exactly as `startField` does (CPython re-dispatches
it without consuming input). -/
def csvRun : List Char → CsvState → List Char → List String → List (List String)
  | [], st, field, row =>
      match st with
      | .startRecord => []
      | .startField => [row ++ [String.mk field]]
      | .inField => [row ++ [String.mk field]]
      | .inQuoted => [row ++ [String.mk field]]
      | .quoteInQuoted => [row ++ [String.mk field]]
  | c :: cs, st, field, row =>
      match st with
      | .startRecord =>
          if c = '\n' then [] :: csvRun cs .startRecord [] []
          else if c = '"' then csvRun cs .inQuoted [] row
          else if c = ',' then csvRun cs .startField [] (row ++ [""])
          else csvRun cs .inField [c] row
      | .startField =>
          if c = '"' then csvRun cs .inQuoted [] row
          else if c = ',' then csvRun cs .startField [] (row ++ [""])
          else if c = '\n' then (row ++ [""]) :: csvRun cs .startRecord [] []
          else csvRun cs .inField [c] row
      | .inField =>
          if c = ',' then csvRun cs .startField [] (row ++ [String.mk field])
          else if c = '\n' then
            (row ++ [String.mk field]) :: csvRun cs .startRecord [] []
          else csvRun cs .inField (field ++ [c]) row
      | .inQuoted =>
          if c = '"' then csvRun cs .quoteInQuoted field row
          else csvRun cs .inQuoted (field ++ [c]) row
      | .quoteInQuoted =>
          if c = '"' then csvRun cs .inQuoted (field ++ ['"']) row
          else if c = ',' then csvRun cs .startField [] (row ++ [String.mk field])
          else if c = '\n' then
            (row ++ [String.mk field]) :: csvRun cs .startRecord [] []
          else csvRun cs .inField (field ++ [c]) row

/-- Rows produced by `csv.reader(io.StringIO(s))` on the whole text. -/
def csvRows (s : String) : List (List String) :=
  csvRun s.data .startRecord [] []

/-! ### Reply parsing

Embedding of the parse logic shared verbatim by
`get_extended_description` in `add-async-extended-descriptions.py`
(lines 112–146) and in `add-extended-descriptions.py` (lines 102–140),
and of `get_suggested_score` in `add-extended-descriptions_two-pass.py`
(lines 158–193). -/

/-- Code-fence stripping: `if text.startswith("```") and
text.endswith("```"): text = text.strip("`\n ")`. -/
def stripFences (text : String) : String :=
  if strStarts "```" text && strEnds "```" text then
    stripChars ['`', '\n', ' '] text
  else text

/-- Header test applied to the first field of a row:
`row[0].lower().strip().startswith("suggested")`. -/
def isHeaderField (f0 : String) : Bool :=
  strStarts "suggested" (pyStrip (pyLower f0))

/-- Description assembled from the fields after the score field:
`row[1].strip()` when the row has exactly two fields, and
`",".join([c.strip() for c in row[1:]])` when it has more. -/
def descFields (d : String) (ds : List String) : String :=
  match ds with
  | [] => pyStrip d
  | _ => joinComma ((d :: ds).map pyStrip)

/-- Structured pass of the two-field parser: the `for row in reader` loop.
Empty rows and header rows are skipped (`continue`); a row with fewer than
two fields falls through the `len(row) >= 2` test and the loop continues;
the first remaining row yields `(int(row[0].strip()) or absent, desc)`.
`none` means the loop ended without returning. -/
def rowScanTwoField : List (List String) → Option (Option Int × String)
  | [] => none
  | [] :: rest => rowScanTwoField rest
  | (f0 :: fs) :: rest =>
      if isHeaderField f0 then rowScanTwoField rest
      else
        match fs with
        | [] => rowScanTwoField rest
        | d :: ds => some (pyInt (pyStrip f0), descFields d ds)

/-- Two-field reply parser shared by the async and sync scripts: strip
optional code fences, run the structured CSV pass, then fall back to a
split at the first comma, then to `("", text)`.  The CSV pass cannot
raise in this embedding (the lexer is total), matching the fact that the
`except` around it is unreachable for `csv.reader` over a string. -/
def parseReplyTwoField (text0 : String) : Option Int × String :=
  let text := stripFences text0
  match rowScanTwoField (csvRows text) with
  | some r => r
  | none =>
      if hasComma text then
        let p := splitFirstComma text
        (pyInt (pyStrip p.1), pyStrip p.2)
      else (none, text)

/-- Structured pass of the single-field numeric parser
(`get_suggested_score`): skip empty and header rows; on the first row
whose leading field parses as an integer, return it when it lies in
1–20 and absent (`return ""`) when it does not; a non-numeric leading
field hits the inner `except: continue`.  The outer `none` means the
loop ended without returning and the regex fallback runs. -/
def singleNumericScan : List (List String) → Option (Option Int)
  | [] => none
  | [] :: rest => singleNumericScan rest
  | (f0 :: _) :: rest =>
      if isHeaderField f0 then singleNumericScan rest
      else
        match pyInt (pyStrip f0) with
        | some n => some (if 1 ≤ n ∧ n ≤ 20 then some n else none)
        | none => singleNumericScan rest

/-- Whether the literal pattern characters `pat` occur in `l` starting at
its head. -/
def matchesAt (pat : List Char) (l : List Char) : Bool :=
  pat.isPrefixOf l

/-- Search of `re.search(r"\\b(\\d{1,2})\\b", text)`.  In the source the
pattern is a *raw* string, so the regex engine receives `\\b(\\d{1,2})\\b`:
`\\` is an escaped literal backslash, hence the pattern matches the
literal text `\b\dd\b` (greedy `{1,2}`) or `\b\d\b`, capturing `\dd` or
`\d` — not a digit token.  The scan tries each start position left to
right, longer alternative first, and returns the captured group. -/
def regexGroupSearch : List Char → Option String
  | [] => none
  | c :: cs =>
      if matchesAt ['\\', 'b', '\\', 'd', 'd', '\\', 'b'] (c :: cs) then
        some "\\dd"
      else if matchesAt ['\\', 'b', '\\', 'd', '\\', 'b'] (c :: cs) then
        some "\\d"
      else regexGroupSearch cs

/-- Regex fallback of `get_suggested_score` (lines 182–193): if the search
matches, coerce the captured group with `int` and return it when in 1–20;
any failure falls through to `return ""`. -/
def regexScoreFallback (text : String) : Option Int :=
  match regexGroupSearch text.data with
  | some g =>
      match pyInt g with
      | some n => if 1 ≤ n ∧ n ≤ 20 then some n else none
      | none => none
  | none => none

/-- Parse stage of `get_suggested_score`: fences, structured pass, regex
fallback, else absent. -/
def getSuggestedScoreParse (text0 : String) : Option Int :=
  let text := stripFences text0
  match singleNumericScan (csvRows text) with
  | some r => r
  | none => regexScoreFallback text

/-- Helper for `firstIntTokenFallback`: scan for the first maximal digit
run of length at most two whose neighbours are not word characters;
`prevWord` records whether the previous character was a word character.
The `fuel` argument only makes the recursion structural; it is always
called with more fuel than there are characters, so it never runs out. -/
def firstIntTokenGo : Nat → List Char → Bool → Option Int
  | 0, _, _ => none
  | _ + 1, [], _ => none
  | fuel + 1, c :: cs, prevWord =>
      if c.isDigit && !prevWord then
        let run := c :: cs.takeWhile Char.isDigit
        let rest := cs.dropWhile Char.isDigit
        if run.length ≤ 2 &&
            (match rest with
             | [] => true
             | d :: _ => !(d.isAlphanum || d = '_')) then
          let v : Int := digitsToNat run
          if 1 ≤ v ∧ v ≤ 20 then some v else none
        else firstIntTokenGo fuel rest true
      else firstIntTokenGo fuel cs (c.isAlphanum || c = '_')

/-- Modelled from the spec: the intended numeric fallback that the
source's regex (see `regexGroupSearch`) fails to implement — scan the raw
text for the first 1–2 digit integer token and return its value when it
lies in 1–20, absent otherwise. -/
def firstIntTokenFallback (text : String) : Option Int :=
  firstIntTokenGo (text.data.length + 1) text.data false

/-! ### Request executor (`add-async-extended-descriptions.py`, lines 101–151)

One attempt of the `for attempt in range(3)` loop interacts with the
environment through a single event: either the awaited request raises
(timeout, connection error, …) or it yields an HTTP response with a
status and a body text.  `attemptOutcome` is the body of the `try`:
a raised exception or a non-200 status is an `error` (caught by the
`except` of the loop), anything else runs the parser on the body — note
that the code parses `await resp.text()`, the raw body, directly. -/

/-- Environment event seen by one attempt. -/
inductive AttemptEvent
  | exn (msg : String)
  | resp (status : Nat) (body : String)
deriving DecidableEq

/-- Outcome of one attempt: the parsed result, or the message of the
exception that the surrounding `except` catches. -/
def attemptOutcome : AttemptEvent → Except String (Option Int × String)
  | .exn m => .error m
  | .resp status body =>
      if status = 200 then .ok (parseReplyTwoField body)
      else .error ("Ollama error " ++ toString status ++ ": " ++ body)

/-- Retry loop over the listed attempt numbers (`range(3)` in the
source).  Returns the result together with the list of back-off sleeps
(`await asyncio.sleep(1 + attempt)`) performed before it; `none` models
the unreachable fall-through of the loop. -/
def retryGo (ev : Nat → AttemptEvent) : List Nat → Option ((Option Int × String) × List Nat)
  | [] => none
  | a :: rest =>
      match attemptOutcome (ev a) with
      | .ok r => some (r, [])
      | .error m =>
          if a = 2 then some ((none, "ERROR after retries: " ++ m), [])
          else
            match retryGo ev rest with
            | some (r, sleeps) => some (r, (1 + a) :: sleeps)
            | none => none

/-- Model of async `get_extended_description`: three attempts, given the
per-attempt environment events. -/
def getExtendedDescriptionRun (ev : Nat → AttemptEvent) :
    Option ((Option Int × String) × List Nat) :=
  retryGo ev (List.range 3)

/-! ### JSON `response` field extraction

The synchronous scripts run `r.json().get("response", "").strip()` on the
response body before parsing; the async script does not.  The JSON
reader below models Python's `json.loads` restricted to flat objects
with string values — the only shape fed to it in this development. -/

/-- Parse a JSON string literal after its opening quote; returns the
string and the rest of the input.  Handles the `\"`, `\\` and `\n`
escapes; other escaped characters are kept literally. -/
def jsonStringAux : Nat → List Char → Option (List Char × List Char)
  | 0, _ => none
  | _ + 1, [] => none
  | fuel + 1, c :: cs =>
      if c = '"' then some ([], cs)
      else if c = '\\' then
        match cs with
        | [] => none
        | e :: cs2 =>
            let decoded := if e = 'n' then '\n' else e
            match jsonStringAux fuel cs2 with
            | some (v, rest) => some (decoded :: v, rest)
            | none => none
      else
        match jsonStringAux fuel cs with
        | some (v, rest) => some (c :: v, rest)
        | none => none

/-- Skip JSON whitespace. -/
def jsonWs (l : List Char) : List Char :=
  l.dropWhile (fun c => c = ' ' ∨ c = '\n' ∨ c = '\t' ∨ c = '\x0d')

/-- Parse the members of a flat JSON object of string values, after the
opening brace.  Returns the association list of members. -/
def jsonMembersAux : Nat → List Char → Option (List (String × String))
  | 0, _ => none
  | fuel + 1, l =>
      match jsonWs l with
      | '}' :: _ => some []
      | '"' :: ks =>
          match jsonStringAux (ks.length + 1) ks with
          | some (k, rest1) =>
              match jsonWs rest1 with
              | ':' :: rest2 =>
                  match jsonWs rest2 with
                  | '"' :: vs =>
                      match jsonStringAux (vs.length + 1) vs with
                      | some (v, rest3) =>
                          match jsonWs rest3 with
                          | ',' :: rest4 =>
                              match jsonMembersAux fuel rest4 with
                              | some ms => some ((String.mk k, String.mk v) :: ms)
                              | none => none
                          | '}' :: _ => some [(String.mk k, String.mk v)]
                          | _ => none
                      | none => none
                  | _ => none
              | _ => none
          | none => none
      | _ => none

/-- Model of `json.loads` on a flat object of string values. -/
def jsonParseFlat (body : String) : Option (List (String × String)) :=
  match jsonWs body.data with
  | '{' :: rest => jsonMembersAux (rest.length + 1) rest
  | _ => none

/-- Model of `r.json().get("response", "")`. -/
def jsonResponseField (body : String) : String :=
  match jsonParseFlat body with
  | some ms => ((ms.find? (fun p => p.1 == "response")).map (fun p => p.2)).getD ""
  | none => ""

/-- Text handed to the reply parser by the async script: the raw body
(`text = await resp.text()`, line 110). -/
def asyncParserInput (body : String) : String := body

/-- Text handed to the reply parser by the synchronous scripts:
`r.json().get("response", "").strip()` (line 100). -/
def syncParserInput (body : String) : String := pyStrip (jsonResponseField body)

/-! ### Tables and the batch merge
(`process_csv_async`, `add-async-extended-descriptions.py` lines 157–223)

A pandas DataFrame read from CSV is a list of column names and a list
of rows; a row is an association list from column name to cell text. -/

/-- One table row: cells addressed by column name. -/
abbrev TabRow := List (String × String)

/-- A loaded DataFrame. -/
structure Table where
  cols : List String
  rows : List TabRow

/-- Cell lookup, `row["c"]`. -/
def rowGet (r : TabRow) (c : String) : String :=
  ((r.find? (fun p => p.1 == c)).map (fun p => p.2)).getD ""

/-- The four required input columns (both scripts, same literal set). -/
def requiredColsList : List String :=
  ["privilege_type", "privilege_name", "privilege_description",
   "privilege_score"]

/-- The exact output column order (`desired_cols`). -/
def desiredColsList : List String :=
  ["privilege_type", "privilege_name", "privilege_description",
   "privilege_score", "suggested_privilege_score", "extended_description"]

/-- Required columns absent from the table
(`required_cols - set(df.columns)`, listed in the fixed order of
`requiredColsList`). -/
def missingCols (t : Table) : List String :=
  requiredColsList.filter (fun c => !(t.cols.contains c))

/-- Result of one enrichment task: suggested score and description. -/
abbrev EnrichResult := Option Int × String

/-- Rendering of a score into its output cell (`""` for absent). -/
def scoreCell : Option Int → String
  | none => ""
  | some n => toString n

/-- Semantics of `asyncio.gather`: the slot of position `i` receives the
result whose task index is `i`, whatever order the `(index, result)`
pairs completed in. -/
def gatherByIndex (n : Nat) (arrivals : List (Nat × EnrichResult)) :
    List (Option EnrichResult) :=
  (List.range n).map
    (fun i => (arrivals.find? (fun p => p.1 == i)).map (fun p => p.2))

/-- One merged output row: the four input cells followed by the two new
cells, in the order `desired_cols` enforces.  `res` is `none` only if
`gather` delivered no result for the slot, which the pipeline never
does; the code then would have placed `("", str(r))` — represented by
the defaults here. -/
def outRow (r : TabRow) (res : Option EnrichResult) : TabRow :=
  let e := res.getD (none, "")
  [("privilege_type", rowGet r "privilege_type"),
   ("privilege_name", rowGet r "privilege_name"),
   ("privilege_description", rowGet r "privilege_description"),
   ("privilege_score", rowGet r "privilege_score"),
   ("suggested_privilege_score", scoreCell e.1),
   ("extended_description", e.2)]

/-- Pairwise merge of input rows with gathered results (the
`df["suggested_privilege_score"] = ...; df["extended_description"] = ...;
df = df[desired_cols]` block); both lists always have the same length. -/
def mergeRows : List TabRow → List (Option EnrichResult) → List TabRow
  | [], _ => []
  | _ :: _, [] => []
  | r :: rs, q :: qs => outRow r q :: mergeRows rs qs

/-- Merge phase of `process_csv_async`: validate the required columns,
then place every task result at its own row and emit the output table.
The `arrivals` list carries each task's result tagged with its task
index, in completion order. -/
def processCsvAsyncRun (t : Table) (arrivals : List (Nat × EnrichResult)) :
    Except (List String) Table :=
  if missingCols t ≠ [] then .error (missingCols t)
  else
    .ok ⟨desiredColsList,
         mergeRows t.rows (gatherByIndex t.rows.length arrivals)⟩

/-! ### Run traces: order of validation against network I/O

`process_csv_async` (async script) validates the columns at lines
167–169, before the client session and the `test_model()` health check;
`process_csv` in both synchronous scripts calls `test_model()` first
(line 153 resp. 206) and only then reads and validates the CSV.  The
traces below record the externally visible events of a run in order,
assuming the health check succeeds when reached. -/

/-- Externally visible events of one run. -/
inductive RunEvent
  | healthCheck
  | request (name : String)
  | validationError (missing : List String)
  | outputWrite
deriving DecidableEq

/-- Event trace of `process_csv_async` (async script). -/
def processCsvAsyncTrace (t : Table) : List RunEvent :=
  if missingCols t ≠ [] then [.validationError (missingCols t)]
  else
    .healthCheck ::
      (t.rows.map (fun r => .request (rowGet r "privilege_name")) ++
        [.outputWrite])

/-- Event trace of synchronous `process_csv` (both sync scripts have the
same order: health check, then read and validate, then per-row work). -/
def processCsvSyncTrace (t : Table) : List RunEvent :=
  .healthCheck ::
    (if missingCols t ≠ [] then [.validationError (missingCols t)]
     else
       t.rows.map (fun r => .request (rowGet r "privilege_name")) ++
         [.outputWrite])

/-! ### Concurrency gate
(`asyncio.Semaphore(MAX_CONCURRENT_REQUESTS)`, lines 13, 101, 181–192)

Every task body of the async pipeline is `async with semaphore: ...`,
so a task is in flight only between its semaphore acquire and release.
The interleaving of the event loop is modelled as a transition system
over the phases of the `m` scheduled tasks: a task may start only while
fewer than `n` tasks hold the semaphore, and a running task may finish,
releasing it.  `MAX_CONCURRENT_REQUESTS = 2` and five rows give the
instance of the spec's example. -/

/-- Phase of one scheduled task. -/
inductive TaskPhase
  | todo
  | running
  | done
deriving DecidableEq

/-- Global state: the phase of each of the `m` tasks. -/
def SemState (m : Nat) := Fin m → TaskPhase

/-- Number of tasks currently holding the semaphore. -/
def inFlight {m : Nat} (s : SemState m) : Nat :=
  (Finset.univ.filter (fun i => s i = TaskPhase.running)).card

/-- Interleaving steps of the gated tasks: `start` acquires the
semaphore (possible only under the cap `n`), `finish` completes the
request and releases it. -/
inductive SemStep (n : Nat) {m : Nat} : SemState m → SemState m → Prop
  | start (s : SemState m) (i : Fin m) :
      s i = TaskPhase.todo → inFlight s < n →
      SemStep n s (Function.update s i TaskPhase.running)
  | finish (s : SemState m) (i : Fin m) :
      s i = TaskPhase.running →
      SemStep n s (Function.update s i TaskPhase.done)

/-- All `m` tasks scheduled, none started. -/
def semInit (m : Nat) : SemState m := fun _ => TaskPhase.todo

/-- States an execution of the event loop can reach. -/
def SemReachable (n m : Nat) (s : SemState m) : Prop :=
  Relation.ReflTransGen (SemStep n) (semInit m) s

/-- No step applies: the run is over. -/
def SemTerminal (n : Nat) {m : Nat} (s : SemState m) : Prop :=
  ∀ s2 : SemState m, ¬ SemStep n s s2

/-! ### Helper lemmas -/

/-- The regex search can only return the captured literal `\dd` or `\d`. -/
theorem regexGroupSearch_shape (l : List Char) :
    regexGroupSearch l = none ∨ regexGroupSearch l = some "\\dd" ∨
      regexGroupSearch l = some "\\d" := by
  induction l with
  | nil => left; rfl
  | cons c cs ih =>
      simp only [regexGroupSearch]
      split
      · right; left; rfl
      · split
        · right; right; rfl
        · exact ih

/-- The numeric regex fallback of `get_suggested_score` never returns a
score on any input: its captured group always begins with a backslash, so
the `int` coercion always fails. -/
theorem regexScoreFallback_none (t : String) : regexScoreFallback t = none := by
  unfold regexScoreFallback
  rcases regexGroupSearch_shape t.data with h | h | h <;> rw [h] <;> decide

/-- Unfolding step of the retry loop: a successful attempt returns its
parse at once. -/
theorem retryGo_cons_ok (ev : Nat → AttemptEvent) (a : Nat) (rest : List Nat)
    (r : Option Int × String) (h : attemptOutcome (ev a) = .ok r) :
    retryGo ev (a :: rest) = some (r, []) := by
  simp only [retryGo, h]

/-- Unfolding step of the retry loop: a failed attempt before the last
sleeps `1 + a` and defers to the remaining attempts. -/
theorem retryGo_cons_error (ev : Nat → AttemptEvent) (a : Nat)
    (rest : List Nat) (m : String) (h : attemptOutcome (ev a) = .error m)
    (ha : a ≠ 2) :
    retryGo ev (a :: rest) =
      match retryGo ev rest with
      | some (r, sleeps) => some (r, (1 + a) :: sleeps)
      | none => none := by
  simp only [retryGo, h, if_neg ha]

/-- Unfolding step of the retry loop: a failure on the last attempt
returns the synthetic error result. -/
theorem retryGo_last_error (ev : Nat → AttemptEvent) (rest : List Nat)
    (m : String) (h : attemptOutcome (ev 2) = .error m) :
    retryGo ev (2 :: rest) =
      some ((none, "ERROR after retries: " ++ m), []) := by
  simp [retryGo, h]

/-! ### Claims -/

/-- C10: a reply consisting solely of the expected header line
`suggested_privilege_score,extended_description` with no data row makes
the two-field parser (shared by the async and sync scripts) skip the
header in the structured pass, find no data, and then split the header
text itself at its first comma: the result is an absent score and the
literal description `extended_description`. -/
theorem c10_header_only_reply :
    parseReplyTwoField "suggested_privilege_score,extended_description" =
      (none, "extended_description") := by decide

/-- C7: the claim states that the secondary fallback of the single-field
numeric parser returns the first 1–2 digit integer token of the raw text
when it lies in 1–20.  The code cannot do this: its raw-string pattern
`r"\\b(\\d{1,2})\\b"` makes the regex engine match the literal text
`\b\d\b` / `\b\dd\b`, so the fallback never yields a score on any input
(first conjunct), and on the reply `"I would suggest a score of 7"` the
whole parser returns an absent score where the intended token scan
(modelled from the spec) returns 7. -/
theorem c7_numeric_fallback_dead :
    (∀ t : String, regexScoreFallback t = none) ∧
    getSuggestedScoreParse "I would suggest a score of 7" = none ∧
    firstIntTokenFallback "I would suggest a score of 7" = some 7 :=
  ⟨regexScoreFallback_none, by decide, by decide⟩

/-- C6: the claim states that the text handed to the reply parser is the
value of the `response` field of the JSON body.  The synchronous scripts
do exactly that, but the async script hands the parser the entire
serialized JSON body (`text = await resp.text()`): on a successful
response whose body is `{"response": "5,desc"}` the async attempt parses
the raw body and produces the garbled `(absent, "desc\"}")`, while the
field value `5,desc` parses to `(5, "desc")`. -/
theorem c6_async_hands_raw_body :
    asyncParserInput "\x7b\"response\": \"5,desc\"\x7d" =
      "\x7b\"response\": \"5,desc\"\x7d" ∧
    syncParserInput "\x7b\"response\": \"5,desc\"\x7d" = "5,desc" ∧
    attemptOutcome (.resp 200 "\x7b\"response\": \"5,desc\"\x7d") =
      .ok (none, "desc\"\x7d") ∧
    parseReplyTwoField "5,desc" = (some 5, "desc") :=
  ⟨rfl, by decide, by decide, by decide⟩

/-- C5 counterexample: an empty response body is not treated as a
retryable failure.  With an empty body at attempt 1 — and a reply that
would parse as `(9, "later")` waiting at the later attempts — the
executor returns the final result `("", "")` at once, with no back-off
sleep performed. -/
theorem c5_counterexample :
    getExtendedDescriptionRun
        (fun n => if n = 0 then .resp 200 "" else .resp 200 "9,later") =
      some ((none, ""), []) := by decide

/-- C5 (amended): a non-success HTTP status raises and is treated as a
retryable failure — after a failed first attempt the executor sleeps and
continues with the remaining attempts — but an empty response body is
not retried: it is handed to the parser and returned immediately as a
final result with absent score and empty description. -/
theorem c5_empty_body_not_retried :
    (∀ s b, s ≠ 200 → ∃ m, attemptOutcome (.resp s b) = .error m) ∧
    (∀ ev m, attemptOutcome (ev 0) = .error m →
        getExtendedDescriptionRun ev =
          (retryGo ev [1, 2]).map (fun p => (p.1, 1 :: p.2))) ∧
    attemptOutcome (.resp 200 "") = .ok (none, "") ∧
    (∀ ev, ev 0 = AttemptEvent.resp 200 "" →
        getExtendedDescriptionRun ev = some ((none, ""), [])) := by
  refine ⟨?_, ?_, by decide, ?_⟩
  · intro s b h
    exact ⟨"Ollama error " ++ toString s ++ ": " ++ b,
      by simp [attemptOutcome, h]⟩
  · intro ev m h
    unfold getExtendedDescriptionRun
    have hr : List.range 3 = [0, 1, 2] := by decide
    rw [hr, retryGo_cons_error ev 0 [1, 2] m h (by decide)]
    rcases h2 : retryGo ev [1, 2] with _ | ⟨r, sleeps⟩ <;> simp [h2]
  · intro ev h
    have h0 : attemptOutcome (ev 0) = .ok (none, "") := by rw [h]; decide
    unfold getExtendedDescriptionRun
    have hr : List.range 3 = [0, 1, 2] := by decide
    rw [hr, retryGo_cons_ok ev 0 [1, 2] (none, "") h0]

/-- C5 witness: the amended theorem applied at an empty-body run and at
a concrete non-success status. -/
theorem c5_empty_body_not_retried_witness :
    getExtendedDescriptionRun (fun _ => .resp 200 "") =
        some ((none, ""), []) ∧
    (∃ m, attemptOutcome (.resp 500 "oops") = .error m) :=
  ⟨c5_empty_body_not_retried.2.2.2 (fun _ => .resp 200 "") rfl,
   c5_empty_body_not_retried.1 500 "oops" (by decide)⟩

/-- C2: the request executor makes at most 3 attempts (its result is a
function of the first three environment events alone), always resolves,
returns the parse of the first successful attempt — including a success
on the third attempt after two failures — and when all three attempts
fail returns an absent score with description
`ERROR after retries: <cause>`, having slept the increasing back-off
intervals 1 and 2 between the failed attempts. -/
theorem c2_retry_budget (ev : Nat → AttemptEvent) :
    (∃ r sleeps, getExtendedDescriptionRun ev = some (r, sleeps)) ∧
    (∀ ev2 : Nat → AttemptEvent, ev 0 = ev2 0 → ev 1 = ev2 1 → ev 2 = ev2 2 →
        getExtendedDescriptionRun ev = getExtendedDescriptionRun ev2) ∧
    (∀ r, attemptOutcome (ev 0) = .ok r →
        getExtendedDescriptionRun ev = some (r, [])) ∧
    (∀ m0 r, attemptOutcome (ev 0) = .error m0 →
        attemptOutcome (ev 1) = .ok r →
        getExtendedDescriptionRun ev = some (r, [1])) ∧
    (∀ m0 m1 r, attemptOutcome (ev 0) = .error m0 →
        attemptOutcome (ev 1) = .error m1 →
        attemptOutcome (ev 2) = .ok r →
        getExtendedDescriptionRun ev = some (r, [1, 2])) ∧
    (∀ m0 m1 m2, attemptOutcome (ev 0) = .error m0 →
        attemptOutcome (ev 1) = .error m1 →
        attemptOutcome (ev 2) = .error m2 →
        getExtendedDescriptionRun ev =
          some ((none, "ERROR after retries: " ++ m2), [1, 2])) := by
  have hr : List.range 3 = [0, 1, 2] := by decide
  refine ⟨?_, ?_, ?_, ?_, ?_, ?_⟩
  · unfold getExtendedDescriptionRun
    rw [hr]
    rcases h0 : attemptOutcome (ev 0) with m0 | r0 <;>
      rcases h1 : attemptOutcome (ev 1) with m1 | r1 <;>
        rcases h2 : attemptOutcome (ev 2) with m2 | r2 <;>
          simp [retryGo, h0, h1, h2]
  · intro ev2 h0 h1 h2
    unfold getExtendedDescriptionRun
    rw [hr]
    simp only [retryGo, h0, h1, h2]
  · intro r h0
    unfold getExtendedDescriptionRun
    rw [hr]
    simp only [retryGo, h0]
  · intro m0 r h0 h1
    unfold getExtendedDescriptionRun
    rw [hr]
    simp [retryGo, h0, h1]
  · intro m0 m1 r h0 h1 h2
    unfold getExtendedDescriptionRun
    rw [hr]
    simp [retryGo, h0, h1, h2]
  · intro m0 m1 m2 h0 h1 h2
    unfold getExtendedDescriptionRun
    rw [hr]
    simp [retryGo, h0, h1, h2]

/-- C2 witness: two timeouts followed by a successful parse on the third
attempt yield the parsed result with back-off sleeps 1 and 2; three
timeouts yield the synthetic error result. -/
theorem c2_retry_budget_witness :
    getExtendedDescriptionRun
        (fun n => if n = 2 then .resp 200 "5,good" else .exn "timeout") =
      some ((some 5, "good"), [1, 2]) ∧
    getExtendedDescriptionRun (fun _ => .exn "timeout") =
      some ((none, "ERROR after retries: timeout"), [1, 2]) :=
  ⟨(c2_retry_budget _).2.2.2.2.1 "timeout" "timeout" (some 5, "good")
      (by decide) (by decide) (by decide),
   (c2_retry_budget _).2.2.2.2.2 "timeout" "timeout" "timeout"
      (by decide) (by decide) (by decide)⟩

/-- Rows the structured passes skip: empty rows and header rows. -/
def skipRow (s : List String) : Bool :=
  match s with
  | [] => true
  | g0 :: _ => isHeaderField g0

/-- The two-field structured pass ignores every leading skippable row. -/
theorem rowScanTwoField_skip (skipped : List (List String))
    (tail : List (List String)) (hskip : skipped.all skipRow = true) :
    rowScanTwoField (skipped ++ tail) = rowScanTwoField tail := by
  induction skipped with
  | nil => rfl
  | cons s ss ih =>
      rcases List.all_eq_true.mp hskip s (List.mem_cons_self s ss) with hs
      have hss : ss.all skipRow = true :=
        List.all_eq_true.mpr
          (fun x hx => List.all_eq_true.mp hskip x (List.mem_cons_of_mem s hx))
      cases s with
      | nil => simpa [rowScanTwoField] using ih hss
      | cons g0 gs =>
          have hg : isHeaderField g0 = true := by simpa [skipRow] using hs
          simpa [rowScanTwoField, hg] using ih hss

/-- The single-field numeric structured pass ignores every leading
skippable row. -/
theorem singleNumericScan_skip (skipped : List (List String))
    (tail : List (List String)) (hskip : skipped.all skipRow = true) :
    singleNumericScan (skipped ++ tail) = singleNumericScan tail := by
  induction skipped with
  | nil => rfl
  | cons s ss ih =>
      rcases List.all_eq_true.mp hskip s (List.mem_cons_self s ss) with hs
      have hss : ss.all skipRow = true :=
        List.all_eq_true.mpr
          (fun x hx => List.all_eq_true.mp hskip x (List.mem_cons_of_mem s hx))
      cases s with
      | nil => simpa [singleNumericScan] using ih hss
      | cons g0 gs =>
          have hg : isHeaderField g0 = true := by simpa [skipRow] using hs
          simpa [singleNumericScan, hg] using ih hss

/-- Every score the single-field numeric structured pass returns lies in
1–20; otherwise it returns the absent marker or falls through. -/
theorem singleNumericScan_shape (rows : List (List String)) :
    singleNumericScan rows = none ∨ singleNumericScan rows = some none ∨
      ∃ k, singleNumericScan rows = some (some k) ∧ 1 ≤ k ∧ k ≤ 20 := by
  induction rows with
  | nil => left; rfl
  | cons s ss ih =>
      cases s with
      | nil => simpa [singleNumericScan] using ih
      | cons g0 gs =>
          by_cases hg : isHeaderField g0 = true
          · simpa [singleNumericScan, hg] using ih
          · rcases hp : pyInt (pyStrip g0) with _ | n
            · simpa [singleNumericScan, hg, hp] using ih
            · by_cases hr : 1 ≤ n ∧ n ≤ 20
              · right; right
                exact ⟨n, by simp [singleNumericScan, hg, hp, hr], hr.1, hr.2⟩
              · right; left
                simp [singleNumericScan, hg, hp, hr]

/-- The whole single-field numeric parser returns an absent score or a
score in 1–20: the structured pass checks the range and the regex
fallback never produces a value. -/
theorem getSuggestedScoreParse_shape (t : String) :
    getSuggestedScoreParse t = none ∨
      ∃ k, getSuggestedScoreParse t = some k ∧ 1 ≤ k ∧ k ≤ 20 := by
  unfold getSuggestedScoreParse
  dsimp only
  rcases singleNumericScan_shape (csvRows (stripFences t)) with h | h | ⟨k, h, h1, h2⟩
  · rw [h]
    left
    exact regexScoreFallback_none (stripFences t)
  · rw [h]
    left; rfl
  · rw [h]
    right
    exact ⟨k, rfl, h1, h2⟩

/-- C4 counterexample: a reply whose score field holds the out-of-range
integer 25 does not yield an absent score in the two-field parser used
by the async and sync scripts — the parser returns 25 unchanged. -/
theorem c4_counterexample :
    parseReplyTwoField "25,desc" = (some 25, "desc") := by decide

/-- C4 (amended): only the single-field numeric parser
(`get_suggested_score`) maps a non-numeric or out-of-range score field
to an absent score, and every score it returns lies in 1–20 (no default,
no clamp).  The two-field parsers of the async and sync scripts return
any integer score field unchanged — even out-of-range values such as 25
or 0 — and yield an absent score only for a non-numeric field. -/
theorem c4_out_of_range_scores (s d : String) (ds : List String)
    (rest : List (List String)) (n : Int) (hh : isHeaderField s = false) :
    (pyInt (pyStrip s) = some n → ¬(1 ≤ n ∧ n ≤ 20) →
        singleNumericScan ((s :: ds) :: rest) = some none) ∧
    (pyInt (pyStrip s) = some n → 1 ≤ n ∧ n ≤ 20 →
        singleNumericScan ((s :: ds) :: rest) = some (some n)) ∧
    (pyInt (pyStrip s) = some n →
        rowScanTwoField ((s :: d :: ds) :: rest) =
          some (some n, descFields d ds)) ∧
    (pyInt (pyStrip s) = none →
        rowScanTwoField ((s :: d :: ds) :: rest) =
          some (none, descFields d ds)) ∧
    (∀ t : String, getSuggestedScoreParse t = none ∨
        ∃ k, getSuggestedScoreParse t = some k ∧ 1 ≤ k ∧ k ≤ 20) := by
  refine ⟨?_, ?_, ?_, ?_, getSuggestedScoreParse_shape⟩
  · intro hp hr
    simp [singleNumericScan, hh, hp, hr]
  · intro hp hr
    simp [singleNumericScan, hh, hp, hr]
  · intro hp
    simp [rowScanTwoField, hh, hp]
  · intro hp
    simp [rowScanTwoField, hh, hp]

/-- C4 witness: the amended theorem applied at the score field `25`:
the single-field numeric parser returns the absent marker, the
two-field parser returns 25 itself. -/
theorem c4_out_of_range_scores_witness :
    singleNumericScan [["25"]] = some none ∧
    rowScanTwoField [["25", "x"]] = some (some 25, "x") := by
  have h := c4_out_of_range_scores "25" "x" [] [] 25 (by decide)
  exact ⟨h.1 (by decide) (by decide), h.2.2.1 (by decide)⟩

/-- C8: on a reply whose structured pass reaches a data row with at
least two fields — after skipping empty rows and rows whose first field
case-insensitively starts with `suggested` — the two-field parser
returns the `int` of the stripped field 0 (absent when the coercion
fails, still a successful parse) paired with field 1 stripped when the
row has exactly two fields, or with fields 1..end re-joined on the
delimiter when it has more (`descFields`). -/
theorem c8_structured_two_field (text : String)
    (skipped rest : List (List String)) (f0 d : String) (ds : List String)
    (hrows : csvRows (stripFences text) = skipped ++ (f0 :: d :: ds) :: rest)
    (hskip : skipped.all skipRow = true)
    (hnh : isHeaderField f0 = false) :
    parseReplyTwoField text = (pyInt (pyStrip f0), descFields d ds) ∧
    descFields d ds =
      (match ds with
       | [] => pyStrip d
       | _ => joinComma ((d :: ds).map pyStrip)) := by
  constructor
  · unfold parseReplyTwoField
    dsimp only
    rw [hrows, rowScanTwoField_skip skipped _ hskip]
    simp [rowScanTwoField, hnh]
  · cases ds <;> rfl

/-- C8 witness: a quoted two-field reply below its header line parses to
the score 7 and the exact quoted description, comma included. -/
theorem c8_structured_two_field_witness :
    parseReplyTwoField
        "suggested_privilege_score,extended_description\n7,\"Allows reading, writing\"" =
      (some 7, "Allows reading, writing") := by
  have h := c8_structured_two_field
    "suggested_privilege_score,extended_description\n7,\"Allows reading, writing\""
    [["suggested_privilege_score", "extended_description"]] []
    "7" "Allows reading, writing" []
    (by decide) (by decide) (by decide)
  simpa using h.1

/-- Table missing the required column `privilege_score`. -/
def t9 : Table :=
  ⟨["privilege_type", "privilege_name", "privilege_description"], []⟩

/-- C9 counterexample: in the synchronous scripts the health-check probe
(a network call) happens before the input table is read and validated,
so on a table missing `privilege_score` the trace issues `healthCheck`
before the validation failure — contradicting the claim that no
health-check probe precedes it. -/
theorem c9_counterexample :
    processCsvSyncTrace t9 =
      [.healthCheck, .validationError ["privilege_score"]] := by decide

/-- C9 (amended): on a table missing required columns the async pipeline
aborts with a validation error naming the missing columns before any
network event, while the synchronous pipelines issue the health-check
probe first and validate afterwards; in both, no enrichment request is
ever issued before (or after) the validation failure. -/
theorem c9_validation_before_requests (t : Table)
    (h : missingCols t ≠ []) :
    processCsvAsyncTrace t = [.validationError (missingCols t)] ∧
    processCsvSyncTrace t =
      [.healthCheck, .validationError (missingCols t)] ∧
    (∀ name, RunEvent.request name ∉ processCsvSyncTrace t) ∧
    (∀ e ∈ processCsvAsyncTrace t, e = .validationError (missingCols t)) := by
  refine ⟨?_, ?_, ?_, ?_⟩
  · simp [processCsvAsyncTrace, h]
  · simp [processCsvSyncTrace, h]
  · intro name
    simp [processCsvSyncTrace, h]
  · intro e he
    simpa [processCsvAsyncTrace, h] using he

/-- C9 witness: the amended theorem applied at the concrete table
missing `privilege_score`. -/
theorem c9_validation_before_requests_witness :
    processCsvAsyncTrace t9 = [.validationError (missingCols t9)] ∧
    processCsvSyncTrace t9 =
      [.healthCheck, .validationError (missingCols t9)] ∧
    (∀ name, RunEvent.request name ∉ processCsvSyncTrace t9) ∧
    (∀ e ∈ processCsvAsyncTrace t9, e = .validationError (missingCols t9)) :=
  c9_validation_before_requests t9 (by decide)

/-- Looking up a task index among completed `(index, result)` pairs that
are a permutation of the scheduled tasks finds exactly that task's
result, whatever the completion order. -/
theorem find_in_perm_range (n : Nat) (f : Nat → EnrichResult)
    (arrivals : List (Nat × EnrichResult))
    (hperm : arrivals.Perm ((List.range n).map (fun i => (i, f i))))
    (i : Nat) (hi : i < n) :
    arrivals.find? (fun p => p.1 == i) = some (i, f i) := by
  have hmem : (i, f i) ∈ arrivals :=
    hperm.mem_iff.mpr (List.mem_map.mpr ⟨i, List.mem_range.mpr hi, rfl⟩)
  rcases hfind : arrivals.find? (fun p => p.1 == i) with _ | p
  · exfalso
    have := List.find?_eq_none.mp hfind (i, f i) hmem
    simp at this
  · have hp1 : p.1 = i := by simpa using List.find?_some hfind
    have hpm : p ∈ (List.range n).map (fun j => (j, f j)) :=
      hperm.mem_iff.mp (List.mem_of_find?_eq_some hfind)
    rcases List.mem_map.mp hpm with ⟨j, _, hpj⟩
    rw [← hpj] at hp1 hfind
    simp only at hp1
    subst hp1
    exact hfind

/-- Under the completion-order permutation hypothesis, `gather` delivers
every task's own result at its own slot. -/
theorem gather_perm (n : Nat) (f : Nat → EnrichResult)
    (arrivals : List (Nat × EnrichResult))
    (hperm : arrivals.Perm ((List.range n).map (fun i => (i, f i)))) :
    gatherByIndex n arrivals = (List.range n).map (fun i => some (f i)) := by
  unfold gatherByIndex
  apply List.map_congr_left
  intro i hi
  rw [find_in_perm_range n f arrivals hperm i (List.mem_range.mp hi)]
  rfl

/-- Merging equal-length lists produces one output row per input row. -/
theorem mergeRows_length (rows : List TabRow)
    (res : List (Option EnrichResult)) (h : rows.length = res.length) :
    (mergeRows rows res).length = rows.length := by
  induction rows generalizing res with
  | nil => cases res <;> rfl
  | cons r rs ih =>
      cases res with
      | nil => simp at h
      | cons q qs =>
          simp only [mergeRows, List.length_cons]
          rw [ih qs (by simpa using h)]

/-- The merged row at position `i` is built from the input row and the
result at position `i`. -/
theorem mergeRows_getD (rows : List TabRow)
    (res : List (Option EnrichResult)) (h : rows.length = res.length)
    (i : Nat) (hi : i < rows.length) :
    (mergeRows rows res).getD i [] =
      outRow (rows.getD i []) (res.getD i none) := by
  induction rows generalizing res i with
  | nil => simp at hi
  | cons r rs ih =>
      cases res with
      | nil => simp at h
      | cons q qs =>
          cases i with
          | zero => rfl
          | succ i =>
              simp only [mergeRows, List.getD_cons_succ]
              exact ih qs (by simpa using h) i (by simpa using hi)

/-- Reading a mapped range at an in-bounds position gives the mapped
value. -/
theorem map_range_getD {α : Type} (g : Nat → α) (d : α) (n i : Nat)
    (hi : i < n) : ((List.range n).map g).getD i d = g i := by
  rw [List.getD_eq_getElem?_getD, List.getElem?_map, List.getElem?_range hi]
  rfl

/-- The merged row keeps the input row's `privilege_name` cell. -/
theorem rowGet_outRow_name (r : TabRow) (e : Option EnrichResult) :
    rowGet (outRow r e) "privilege_name" = rowGet r "privilege_name" := by
  simp [outRow, rowGet, List.find?]

/-- The merged row's `suggested_privilege_score` cell renders the
delivered score. -/
theorem rowGet_outRow_score (r : TabRow) (e : EnrichResult) :
    rowGet (outRow r (some e)) "suggested_privilege_score" =
      scoreCell e.1 := by
  simp [outRow, rowGet, List.find?]

/-- The merged row's `extended_description` cell carries the delivered
description. -/
theorem rowGet_outRow_desc (r : TabRow) (e : EnrichResult) :
    rowGet (outRow r (some e)) "extended_description" = e.2 := by
  simp [outRow, rowGet, List.find?]

/-- C1: on an input table with the four required columns, whatever order
the per-row requests complete in (any permutation of task-indexed
results), the batch merge succeeds and produces exactly one output row
per input row; row `i` keeps its `privilege_name` and carries exactly
the enrichment result computed for position `i` — including the case in
which every request failed, where `f i` is the synthetic failure result
and is still placed, so no row is dropped. -/
theorem c1_merge_preserves_rows (t : Table) (f : Nat → EnrichResult)
    (arrivals : List (Nat × EnrichResult))
    (hcols : missingCols t = [])
    (hperm : arrivals.Perm
      ((List.range t.rows.length).map (fun i => (i, f i)))) :
    ∃ out : Table, processCsvAsyncRun t arrivals = .ok out ∧
      out.cols = desiredColsList ∧
      out.rows.length = t.rows.length ∧
      ∀ i, i < t.rows.length →
        rowGet (out.rows.getD i []) "privilege_name" =
          rowGet (t.rows.getD i []) "privilege_name" ∧
        rowGet (out.rows.getD i []) "suggested_privilege_score" =
          scoreCell (f i).1 ∧
        rowGet (out.rows.getD i []) "extended_description" = (f i).2 := by
  have hgather := gather_perm t.rows.length f arrivals hperm
  have hlen : t.rows.length =
      (gatherByIndex t.rows.length arrivals).length := by
    rw [hgather, List.length_map, List.length_range]
  refine ⟨⟨desiredColsList,
      mergeRows t.rows (gatherByIndex t.rows.length arrivals)⟩, ?_, rfl,
      mergeRows_length _ _ hlen, ?_⟩
  · unfold processCsvAsyncRun
    rw [if_neg (by simp [hcols])]
  · intro i hi
    have hres : (gatherByIndex t.rows.length arrivals).getD i none =
        some (f i) := by
      rw [hgather, map_range_getD _ _ _ _ hi]
    rw [mergeRows_getD t.rows _ hlen i hi, hres]
    exact ⟨rowGet_outRow_name _ _, rowGet_outRow_score _ _,
      rowGet_outRow_desc _ _⟩

/-- Concrete two-row input table with the four required columns. -/
def tC1 : Table :=
  ⟨["privilege_type", "privilege_name", "privilege_description",
    "privilege_score"],
   [[("privilege_type", "Delegated"), ("privilege_name", "User.Read"),
     ("privilege_description", "d1"), ("privilege_score", "3")],
    [("privilege_type", "Application"),
     ("privilege_name", "Mail.ReadWrite"),
     ("privilege_description", "d2"), ("privilege_score", "9")]]⟩

/-- Per-task results for the witness: task 0 succeeds, task 1 exhausts
its retries. -/
def fC1 : Nat → EnrichResult :=
  fun i => if i = 0 then (some 4, "a") else (none, "ERROR after retries: boom")

/-- Completion order for the witness: task 1 finishes before task 0. -/
def arrC1 : List (Nat × EnrichResult) :=
  [(1, (none, "ERROR after retries: boom")), (0, (some 4, "a"))]

/-- C1 witness: the merge theorem applied to the two-row table with the
tasks completing in reverse order. -/
theorem c1_merge_preserves_rows_witness :
    ∃ out : Table, processCsvAsyncRun tC1 arrC1 = .ok out ∧
      out.cols = desiredColsList ∧
      out.rows.length = tC1.rows.length ∧
      ∀ i, i < tC1.rows.length →
        rowGet (out.rows.getD i []) "privilege_name" =
          rowGet (tC1.rows.getD i []) "privilege_name" ∧
        rowGet (out.rows.getD i []) "suggested_privilege_score" =
          scoreCell (fC1 i).1 ∧
        rowGet (out.rows.getD i []) "extended_description" = (fC1 i).2 :=
  c1_merge_preserves_rows tC1 fC1 arrC1 (by decide) (by decide)

/-- Starting a task that was not running adds one holder. -/
theorem inFlight_update_run {m : Nat} (s : SemState m) (i : Fin m)
    (h : s i ≠ TaskPhase.running) :
    inFlight (Function.update s i TaskPhase.running) = inFlight s + 1 := by
  unfold inFlight
  have hset :
      (Finset.univ.filter
        (fun j => Function.update s i TaskPhase.running j =
          TaskPhase.running)) =
        insert i (Finset.univ.filter (fun j => s j = TaskPhase.running)) := by
    ext j
    by_cases hj : j = i
    · subst hj
      simp [Function.update_apply]
    · simp [Function.update_apply, hj]
  rw [hset, Finset.card_insert_of_not_mem (by simp [h])]

/-- Finishing a running task removes one holder. -/
theorem inFlight_update_done {m : Nat} (s : SemState m) (i : Fin m)
    (h : s i = TaskPhase.running) :
    inFlight (Function.update s i TaskPhase.done) = inFlight s - 1 := by
  unfold inFlight
  have hset :
      (Finset.univ.filter
        (fun j => Function.update s i TaskPhase.done j =
          TaskPhase.running)) =
        (Finset.univ.filter (fun j => s j = TaskPhase.running)).erase i := by
    ext j
    by_cases hj : j = i
    · subst hj
      simp [Function.update_apply]
    · simp [Function.update_apply, hj]
  rw [hset, Finset.card_erase_of_mem (by simp [h])]

/-- A state with no running task holds no semaphore permit. -/
theorem inFlight_zero_of_no_running {m : Nat} (s : SemState m)
    (h : ∀ i, s i ≠ TaskPhase.running) : inFlight s = 0 := by
  unfold inFlight
  rw [Finset.card_eq_zero]
  ext j
  simp [h j]

/-- Gate invariant: no reachable state has more than `n` requests in
flight. -/
theorem inFlight_le_cap (n m : Nat) (s : SemState m)
    (hr : SemReachable n m s) : inFlight s ≤ n := by
  induction hr with
  | refl =>
      have : inFlight (semInit m) = 0 :=
        inFlight_zero_of_no_running _ (fun i => by simp [semInit])
      omega
  | tail hsteps hstep ih =>
      cases hstep with
      | start i htodo hlt =>
          rw [inFlight_update_run _ i (by simp [htodo])]
          omega
      | finish i hrun =>
          rw [inFlight_update_done _ i hrun]
          omega

/-- When the gate has a positive cap and no step applies any more, every
task has run to completion. -/
theorem semTerminal_all_done {n m : Nat} (hn : 0 < n) (s : SemState m)
    (ht : SemTerminal n s) : ∀ i, s i = TaskPhase.done := by
  by_contra hc
  push_neg at hc
  obtain ⟨i, hi⟩ := hc
  by_cases hrun : ∃ j, s j = TaskPhase.running
  · obtain ⟨j, hj⟩ := hrun
    exact ht _ (SemStep.finish s j hj)
  · push_neg at hrun
    have h0 : inFlight s = 0 := inFlight_zero_of_no_running s hrun
    have htodo : s i = TaskPhase.todo := by
      cases hsi : s i
      · rfl
      · exact absurd hsi (hrun i)
      · exact absurd hsi hi
    exact ht _ (SemStep.start s i htodo (by omega))

/-- State in which the first `k` tasks are finished and the rest are
still scheduled. -/
def semDone (m k : Nat) : SemState m :=
  fun j => if j.val < k then TaskPhase.done else TaskPhase.todo

/-- The sequential execution start 0, finish 0, start 1, finish 1, …
reaches the state with the first `k` tasks finished. -/
theorem semDone_reachable (n m : Nat) (hn : 0 < n) :
    ∀ k, k ≤ m → SemReachable n m (semDone m k) := by
  intro k
  induction k with
  | zero =>
      intro _
      have : semDone m 0 = semInit m := by
        funext j
        simp [semDone, semInit]
      rw [this]
      exact Relation.ReflTransGen.refl
  | succ k ih =>
      intro hk
      have hreach := ih (Nat.le_of_succ_le hk)
      have hnr : ∀ j, semDone m k j ≠ TaskPhase.running := by
        intro j
        unfold semDone
        split <;> simp
      have h0 : inFlight (semDone m k) = 0 :=
        inFlight_zero_of_no_running _ hnr
      have hkm : k < m := hk
      have htodo : semDone m k ⟨k, hkm⟩ = TaskPhase.todo := by
        simp [semDone]
      have hstep1 : SemStep n (semDone m k)
          (Function.update (semDone m k) ⟨k, hkm⟩ TaskPhase.running) :=
        SemStep.start _ _ htodo (by omega)
      have hstep2 : SemStep n
          (Function.update (semDone m k) ⟨k, hkm⟩ TaskPhase.running)
          (Function.update
            (Function.update (semDone m k) ⟨k, hkm⟩ TaskPhase.running)
            ⟨k, hkm⟩ TaskPhase.done) :=
        SemStep.finish _ _ (by simp [Function.update_apply])
      have heq :
          Function.update
            (Function.update (semDone m k) ⟨k, hkm⟩ TaskPhase.running)
            ⟨k, hkm⟩ TaskPhase.done = semDone m (k + 1) := by
        funext j
        by_cases hj : j = (⟨k, hkm⟩ : Fin m)
        · subst hj
          simp [Function.update_apply, semDone]
        · have hjk : j.val ≠ k := fun hv => hj (Fin.ext hv)
          simp only [Function.update_apply, if_neg hj, semDone]
          by_cases hlt : j.val < k
          · rw [if_pos hlt, if_pos (Nat.lt_succ_of_lt hlt)]
          · rw [if_neg hlt, if_neg (by omega)]
      have hfin := (hreach.tail hstep1).tail hstep2
      rwa [heq] at hfin

/-- C3: with a concurrency cap of `n` and `m` scheduled requests, every
state the gated event loop can reach has at most `n` requests in flight;
a run can only stop when every request has completed, and a complete run
(all `m` tasks finished) is reachable.  Instantiated in the witness at
the code's `MAX_CONCURRENT_REQUESTS = 2` and the spec's example of 5
requests. -/
theorem c3_semaphore_cap (n m : Nat) (hn : 0 < n) (s : SemState m)
    (hr : SemReachable n m s) :
    inFlight s ≤ n ∧
    (SemTerminal n s → ∀ i, s i = TaskPhase.done) ∧
    SemReachable n m (fun _ => TaskPhase.done) := by
  refine ⟨inFlight_le_cap n m s hr, semTerminal_all_done hn s, ?_⟩
  have h := semDone_reachable n m hn m (Nat.le_refl m)
  have heq : semDone m m = (fun _ : Fin m => TaskPhase.done) := by
    funext j
    simp [semDone, j.isLt]
  rwa [heq] at h

/-- C3 witness: cap 2 with 5 scheduled requests, applied at a state two
steps into a run (tasks 0 and 1 both in flight). -/
theorem c3_semaphore_cap_witness :
    inFlight
        (Function.update
          (Function.update (semInit 5) (0 : Fin 5) TaskPhase.running)
          (1 : Fin 5) TaskPhase.running) ≤ 2 ∧
    (SemTerminal 2
        (Function.update
          (Function.update (semInit 5) (0 : Fin 5) TaskPhase.running)
          (1 : Fin 5) TaskPhase.running) →
      ∀ i, Function.update
          (Function.update (semInit 5) (0 : Fin 5) TaskPhase.running)
          (1 : Fin 5) TaskPhase.running i = TaskPhase.done) ∧
    SemReachable 2 5 (fun _ => TaskPhase.done) :=
  c3_semaphore_cap 2 5 (by decide) _
    ((Relation.ReflTransGen.refl.tail
        (SemStep.start (semInit 5) 0 (by decide) (by decide))).tail
      (SemStep.start _ 1 (by decide) (by decide)))

end Scraper
